import Mathlib

/-!
Shallow embedding of the kjw-writings visit-counter server
(src/server/index.js and src/unnamed/part_000).

The server keeps two aggregate counters, `totalVisits` and
`uniqueVisitors`, in an in-process `stats` object, together with a
`seenVisitorIds` set.  When a database connection string is present the
durable backend (a singleton `visit_stats` row plus a `visitors` table,
updated by a single CTE transaction) is used and the in-process `stats`
object acts as a cache of the last values read from the database;
otherwise the ephemeral in-memory backend is used.

Machine integers of the source (JS numbers / SQL bigint) are modelled as
`Nat`: all operations in scope only increment the counters by 0 or 1, so
no overflow behaviour is observable in the claims.  The JS `Set` and the
`visitors` table are modelled as `Finset String`.  Request handlers are
pure state transformers; the fallibility of the durable store is an
explicit `dbError` flag on each durable operation (the `catch` branch of
the source).
-/

/-- The in-process `stats` object (both files, lines 12-16). -/
structure Stats where
  totalVisits : Nat
  uniqueVisitors : Nat
deriving DecidableEq, Repr

/-- State of the ephemeral backend: the `stats` counters plus the
`seenVisitorIds` set (part_000 lines 12-16, index.js lines 13-17). -/
structure EphState where
  stats : Stats
  seenVisitorIds : Finset String
deriving DecidableEq

/-- State of the durable store: the `visitors` table (set of primary-key
ids) and the singleton `visit_stats` row (index.js lines 30-46).  The
model assumes `ensureTables` succeeded, so the `visit_stats` row with
`id = 1` always exists. -/
structure DbState where
  visitors : Finset String
  total_visits : Nat
  unique_visitors : Nat
deriving DecidableEq

/-- Full state of the durable-backend server: in-process cache `stats`,
the (never-populated-in-this-mode) `seenVisitorIds` set, and the
database. -/
structure DurState where
  stats : Stats
  seenVisitorIds : Finset String
  db : DbState
deriving DecidableEq

/-- Body of the JSON response of `POST /api/visit`. -/
inductive VisitBody where
  | success (ok : Bool) (totalVisits : Nat) (uniqueVisitors : Nat) (newVisitor : Bool)
  | failure (ok : Bool) (error : String)
deriving DecidableEq, Repr

/-- Response of `POST /api/visit`: HTTP status, JSON body, and the value
of the `vid` cookie set by `res.cookie`, when reached. -/
structure VisitResponse where
  status : Nat
  body : VisitBody
  setCookieVid : Option String
deriving DecidableEq, Repr

/-- Body of the JSON response of `GET /api/stats`. -/
inductive StatsBody where
  | success (totalVisits : Nat) (uniqueVisitors : Nat)
  | failure (ok : Bool) (error : String)
deriving DecidableEq, Repr

/-- Response of `GET /api/stats`. -/
structure StatsResponse where
  status : Nat
  body : StatsBody
deriving DecidableEq, Repr

/-- Resolution of the visitor id from the `vid` cookie
(index.js lines 81-86, part_000 lines 45-50): when the cookie is absent
a freshly generated `crypto.randomUUID()` value — passed in here as
`freshId` — is used. -/
def resolveVisitorId (cookieVid : Option String) (freshId : String) : String :=
  match cookieVid with
  | none => freshId
  | some v => v

/-- The `isNew` flag as computed before any backend work
(both files: `!visitorId` sets it, else `!seenVisitorIds.has(visitorId)`
sets it). -/
def resolveIsNew (seen : Finset String) (cookieVid : Option String) : Bool :=
  match cookieVid with
  | none => true
  | some v => if v ∈ seen then false else true

/-- Handler for `POST /api/visit`, ephemeral backend (part_000 lines 44-74,
index.js lines 91-96 with the shared epilogue 134-146): increment
`totalVisits`, and when the visitor is new also increment
`uniqueVisitors` and add the id to `seenVisitorIds`; then set the `vid`
cookie and answer with the updated counters. -/
def postVisitEphemeral (s : EphState) (cookieVid : Option String) (freshId : String) :
    EphState × VisitResponse :=
  let visitorId := resolveVisitorId cookieVid freshId
  let isNew := resolveIsNew s.seenVisitorIds cookieVid
  let stats1 : Stats :=
    { totalVisits := s.stats.totalVisits + 1
      uniqueVisitors := if isNew then s.stats.uniqueVisitors + 1 else s.stats.uniqueVisitors }
  let seen1 := if isNew then insert visitorId s.seenVisitorIds else s.seenVisitorIds
  ({ stats := stats1, seenVisitorIds := seen1 },
   { status := 200
     body := VisitBody.success true stats1.totalVisits stats1.uniqueVisitors isNew
     setCookieVid := some visitorId })

/-- Handler for `GET /api/stats`, ephemeral backend (part_000 lines 76-81,
index.js lines 150-155): report the in-process counters; no mutation. -/
def getStatsEphemeral (s : EphState) : EphState × StatsResponse :=
  (s, { status := 200, body := StatsBody.success s.stats.totalVisits s.stats.uniqueVisitors })

/-- The CTE transaction of index.js lines 99-121: insert the visitor id
if absent, add 1 to `total_visits`, add the number of inserted rows
(0 or 1) to `unique_visitors`, and return the updated row together with
the inserted-row count (`new_visitor`).  Result:
`(new db, total_visits, unique_visitors, new_visitor)`. -/
def visitUpdateQuery (db : DbState) (visitorId : String) : DbState × Nat × Nat × Nat :=
  let inserted : Nat := if visitorId ∈ db.visitors then 0 else 1
  let db1 : DbState :=
    { visitors := insert visitorId db.visitors
      total_visits := db.total_visits + 1
      unique_visitors := db.unique_visitors + inserted }
  (db1, db1.total_visits, db1.unique_visitors, inserted)

/-- A JavaScript value as relevant to index.js's handling of query
results.  node-postgres, with no custom type parser configured (the
`Pool` at index.js lines 20-25 sets only `connectionString` and `ssl`),
delivers bigint (int8) columns — including the `COUNT(*)` behind
`new_visitor` — as JS strings. -/
inductive JsValue where
  | str (s : String)
  | num (n : Nat)
deriving DecidableEq, Repr

/-- JavaScript strict equality `===`: no type coercion, so operands of
different runtime types are never equal. -/
def jsStrictEq : JsValue → JsValue → Bool
  | JsValue.str a, JsValue.str b => a == b
  | JsValue.num a, JsValue.num b => a == b
  | JsValue.str _, JsValue.num _ => false
  | JsValue.num _, JsValue.str _ => false

/-- Handler for `POST /api/visit`, durable backend (index.js lines 80-147).  On a
query error the handler returns early with HTTP 500 and body
`{ ok: false, error: "stats_update_failed" }`, touching neither the
cache nor the cookie.  On success the cache is overwritten with the
returned row (`Number(...)` applied to pg's decimal string rendering of
each counter round-trips to the same value, so it is modelled as the
identity), and `isNew` comes from line 123's
`result.rows[0].new_visitor === 1`: pg delivers the int8 `new_visitor`
column as a string, so this strict comparison of a string against the
number 1 is always false. -/
def postVisitDurable (s : DurState) (cookieVid : Option String) (freshId : String)
    (dbError : Bool) : DurState × VisitResponse :=
  let visitorId := resolveVisitorId cookieVid freshId
  if dbError then
    (s, { status := 500
          body := VisitBody.failure false "stats_update_failed"
          setCookieVid := none })
  else
    let q := visitUpdateQuery s.db visitorId
    let isNew : Bool := jsStrictEq (JsValue.str (toString q.2.2.2)) (JsValue.num 1)
    let stats1 : Stats := { totalVisits := q.2.1, uniqueVisitors := q.2.2.1 }
    ({ stats := stats1, seenVisitorIds := s.seenVisitorIds, db := q.1 },
     { status := 200
       body := VisitBody.success true stats1.totalVisits stats1.uniqueVisitors isNew
       setCookieVid := some visitorId })

/-- Handler for `GET /api/stats`, durable backend (index.js lines 149-172): read the
singleton row, overwrite the cache with it and report it; on a query
error answer HTTP 500 `{ ok: false, error: "stats_read_failed" }` with
the cache untouched. -/
def getStatsDurable (s : DurState) (dbError : Bool) : DurState × StatsResponse :=
  if dbError then
    (s, { status := 500, body := StatsBody.failure false "stats_read_failed" })
  else
    let stats1 : Stats :=
      { totalVisits := s.db.total_visits, uniqueVisitors := s.db.unique_visitors }
    ({ stats := stats1, seenVisitorIds := s.seenVisitorIds, db := s.db },
     { status := 200, body := StatsBody.success stats1.totalVisits stats1.uniqueVisitors })

/-- Initial ephemeral state: zero counters, empty set. -/
def ephInit : EphState :=
  { stats := { totalVisits := 0, uniqueVisitors := 0 }, seenVisitorIds := ∅ }

/-- Initial database state after `ensureTables`: empty `visitors` table
and the `visit_stats` row `(1, 0, 0)`. -/
def dbInit : DbState :=
  { visitors := ∅, total_visits := 0, unique_visitors := 0 }

/-- Initial durable-backend server state. -/
def durInit : DurState :=
  { stats := { totalVisits := 0, uniqueVisitors := 0 }, seenVisitorIds := ∅, db := dbInit }

/-- An operation against the ephemeral backend. -/
inductive EphOp where
  | visit (cookieVid : Option String) (freshId : String)
  | stats
deriving DecidableEq, Repr

/-- State transition of one ephemeral operation. -/
def ephStep (s : EphState) : EphOp → EphState
  | EphOp.visit c f => (postVisitEphemeral s c f).1
  | EphOp.stats => (getStatsEphemeral s).1

/-- State after a sequence of ephemeral operations. -/
def ephRun (s : EphState) : List EphOp → EphState
  | [] => s
  | op :: ops => ephRun (ephStep s op) ops

/-- An operation against the durable backend; `dbError` is true when the
store errors during that operation. -/
inductive DurOp where
  | visit (cookieVid : Option String) (freshId : String) (dbError : Bool)
  | stats (dbError : Bool)
deriving DecidableEq, Repr

/-- State transition of one durable operation. -/
def durStep (s : DurState) : DurOp → DurState
  | DurOp.visit c f e => (postVisitDurable s c f e).1
  | DurOp.stats e => (getStatsDurable s e).1

/-- State after a sequence of durable operations. -/
def durRun (s : DurState) : List DurOp → DurState
  | [] => s
  | op :: ops => durRun (durStep s op) ops

/-- A sequence of visits each carrying a visitor id in its cookie. -/
def visitOps (ids : List String) : List EphOp :=
  ids.map (fun v => EphOp.visit (some v) "")

/-- CORS middleware input: the request's `Origin` header and method. -/
structure CorsRequest where
  origin : Option String
  method : String
deriving DecidableEq, Repr

/-- What the CORS middleware (index.js lines 58-75, part_000 lines
22-39) did to the response: `shortCircuitStatus` is `some 204` exactly
when it answered the request itself instead of calling `next()`, and
each header field holds the value set on the response, if any. -/
structure CorsResponse where
  shortCircuitStatus : Option Nat
  allowOrigin : Option String
  allowCredentials : Option String
  varyOrigin : Option String
  allowMethods : Option String
  allowHeaders : Option String
deriving DecidableEq, Repr

/-- The allow-list built from the `ALLOWED_ORIGIN` environment variable:
split on commas, trim, drop empty entries (both files). -/
def allowedOriginsList (allowedOrigin : Option String) : List String :=
  match allowedOrigin with
  | none => []
  | some s => ((s.splitOn ",").map (fun v => v.trim)).filter (fun v => v != "")

/-- The CORS middleware (index.js lines 58-75, part_000 lines 22-39;
the two are identical).  The origin-specific headers are set only for a
present, truthy, allow-listed origin; every `OPTIONS` request is then
answered 204 with the `Allow-Methods` and `Allow-Headers` headers,
unconditionally. -/
def corsMiddleware (allowedOrigin : Option String) (req : CorsRequest) : CorsResponse :=
  let allowedOrigins := allowedOriginsList allowedOrigin
  let originAllowed : Bool :=
    match req.origin with
    | none => false
    | some o => (o != "") && allowedOrigins.contains o
  let allowOrigin := if originAllowed then req.origin else none
  let allowCredentials := if originAllowed then some "true" else none
  let varyOrigin := if originAllowed then some "Origin" else none
  if req.method == "OPTIONS" then
    { shortCircuitStatus := some 204
      allowOrigin := allowOrigin
      allowCredentials := allowCredentials
      varyOrigin := varyOrigin
      allowMethods := some "GET,POST,OPTIONS"
      allowHeaders := some "Content-Type" }
  else
    { shortCircuitStatus := none
      allowOrigin := allowOrigin
      allowCredentials := allowCredentials
      varyOrigin := varyOrigin
      allowMethods := none
      allowHeaders := none }

/-- A response that answers a preflight as the spec describes: 204 with
`Access-Control-Allow-Methods: GET,POST,OPTIONS` and
`Access-Control-Allow-Headers: Content-Type`. -/
def preflightAnswered (r : CorsResponse) : Prop :=
  r.shortCircuitStatus = some 204 ∧
  r.allowMethods = some "GET,POST,OPTIONS" ∧
  r.allowHeaders = some "Content-Type"

instance (r : CorsResponse) : Decidable (preflightAnswered r) := by
  unfold preflightAnswered; infer_instance

/-- The request's `Origin` header is present and appears in the
configured allow-list. -/
def originAllowListed (allowedOrigin : Option String) (req : CorsRequest) : Prop :=
  ∃ o, req.origin = some o ∧ o ∈ allowedOriginsList allowedOrigin

/-- Claim C9 as stated by the spec: an OPTIONS request is answered 204
with the two preflight headers when, and only when, the origin is
present and allow-listed. -/
def corsClaimC9 : Prop :=
  ∀ (allowedOrigin : Option String) (req : CorsRequest), req.method = "OPTIONS" →
    (preflightAnswered (corsMiddleware allowedOrigin req) ↔ originAllowListed allowedOrigin req)

/-- Freshness of one operation: when the handler generates a new uuid
(no cookie), the generated id is not already a member of the seen set —
the collision-freedom assumption on `crypto.randomUUID()`. -/
def freshOk (s : EphState) : EphOp → Bool
  | EphOp.visit none freshId => !(decide (freshId ∈ s.seenVisitorIds))
  | EphOp.visit (some _) _ => true
  | EphOp.stats => true

/-- Freshness of a whole run of ephemeral operations, checked against
the state at which each operation executes. -/
def freshRun (s : EphState) : List EphOp → Bool
  | [] => true
  | op :: ops => freshOk s op && freshRun (ephStep s op) ops

lemma ephStep_visit_mem (s : EphState) (v f : String) (hv : v ∈ s.seenVisitorIds) :
    ephStep s (EphOp.visit (some v) f) =
      { stats := { totalVisits := s.stats.totalVisits + 1
                   uniqueVisitors := s.stats.uniqueVisitors }
        seenVisitorIds := s.seenVisitorIds } := by
  simp [ephStep, postVisitEphemeral, resolveIsNew, resolveVisitorId, hv]

lemma ephStep_visit_not_mem (s : EphState) (v f : String) (hv : v ∉ s.seenVisitorIds) :
    ephStep s (EphOp.visit (some v) f) =
      { stats := { totalVisits := s.stats.totalVisits + 1
                   uniqueVisitors := s.stats.uniqueVisitors + 1 }
        seenVisitorIds := insert v s.seenVisitorIds } := by
  simp [ephStep, postVisitEphemeral, resolveIsNew, resolveVisitorId, hv]

lemma ephRun_visitOps_spec (ids : List String) (s : EphState) :
    (ephRun s (visitOps ids)).stats.totalVisits = s.stats.totalVisits + ids.length ∧
    (ephRun s (visitOps ids)).seenVisitorIds = s.seenVisitorIds ∪ ids.toFinset ∧
    (ephRun s (visitOps ids)).stats.uniqueVisitors + s.seenVisitorIds.card =
      s.stats.uniqueVisitors + (s.seenVisitorIds ∪ ids.toFinset).card := by
  induction ids generalizing s with
  | nil => simp [visitOps, ephRun]
  | cons v ids ih =>
    have hrun : ephRun s (visitOps (v :: ids)) =
        ephRun (ephStep s (EphOp.visit (some v) "")) (visitOps ids) := by
      simp [visitOps, ephRun]
    by_cases hv : v ∈ s.seenVisitorIds
    · rw [hrun, ephStep_visit_mem s v "" hv]
      obtain ⟨h1, h2, h3⟩ := ih ⟨⟨s.stats.totalVisits + 1, s.stats.uniqueVisitors⟩,
        s.seenVisitorIds⟩
      dsimp only at h1 h2 h3
      refine ⟨?_, ?_, ?_⟩
      · simp only [List.length_cons]
        omega
      · rw [h2, List.toFinset_cons, Finset.union_insert,
          Finset.insert_eq_self.2 (Finset.mem_union_left _ hv)]
      · rw [List.toFinset_cons, Finset.union_insert,
          Finset.insert_eq_self.2 (Finset.mem_union_left _ hv)]
        exact h3
    · rw [hrun, ephStep_visit_not_mem s v "" hv]
      obtain ⟨h1, h2, h3⟩ := ih ⟨⟨s.stats.totalVisits + 1, s.stats.uniqueVisitors + 1⟩,
        insert v s.seenVisitorIds⟩
      dsimp only at h1 h2 h3
      refine ⟨?_, ?_, ?_⟩
      · simp only [List.length_cons]
        omega
      · rw [h2, List.toFinset_cons, Finset.insert_union, Finset.union_insert]
      · rw [Finset.card_insert_of_not_mem hv, Finset.insert_union] at h3
        rw [List.toFinset_cons, Finset.union_insert]
        omega

/-- Claim C1: a sequence of N recordVisit calls against the ephemeral
backend, starting from the initial state and carrying K distinct
visitor ids, ends with totalVisits = N and uniqueVisitors = K. -/
theorem recordVisit_run_counts (ids : List String) :
    (ephRun ephInit (visitOps ids)).stats.totalVisits = ids.length ∧
    (ephRun ephInit (visitOps ids)).stats.uniqueVisitors = ids.toFinset.card := by
  obtain ⟨h1, _, h3⟩ := ephRun_visitOps_spec ids ephInit
  simp [ephInit] at h1 h3
  exact ⟨h1, h3⟩

lemma ephStep_le (s : EphState) (op : EphOp)
    (h : s.stats.uniqueVisitors ≤ s.stats.totalVisits) :
    (ephStep s op).stats.uniqueVisitors ≤ (ephStep s op).stats.totalVisits := by
  cases op with
  | visit c f =>
    show (if resolveIsNew s.seenVisitorIds c then s.stats.uniqueVisitors + 1
          else s.stats.uniqueVisitors) ≤ s.stats.totalVisits + 1
    split <;> omega
  | stats => exact h

lemma ephRun_le (ops : List EphOp) (s : EphState)
    (h : s.stats.uniqueVisitors ≤ s.stats.totalVisits) :
    (ephRun s ops).stats.uniqueVisitors ≤ (ephRun s ops).stats.totalVisits := by
  induction ops generalizing s with
  | nil => simpa [ephRun]
  | cons op ops ih => exact ih _ (ephStep_le s op h)

def durCounterInv (s : DurState) : Prop :=
  s.stats.uniqueVisitors ≤ s.stats.totalVisits ∧
  s.db.unique_visitors ≤ s.db.total_visits

lemma durStep_visit_ok (s : DurState) (c : Option String) (f : String) :
    durStep s (DurOp.visit c f false) =
      { stats := { totalVisits := s.db.total_visits + 1
                   uniqueVisitors := s.db.unique_visitors +
                     (if resolveVisitorId c f ∈ s.db.visitors then 0 else 1) }
        seenVisitorIds := s.seenVisitorIds
        db := { visitors := insert (resolveVisitorId c f) s.db.visitors
                total_visits := s.db.total_visits + 1
                unique_visitors := s.db.unique_visitors +
                  (if resolveVisitorId c f ∈ s.db.visitors then 0 else 1) } } := rfl

lemma durStep_visit_err (s : DurState) (c : Option String) (f : String) :
    durStep s (DurOp.visit c f true) = s := rfl

lemma durStep_stats_ok (s : DurState) :
    durStep s (DurOp.stats false) =
      { stats := { totalVisits := s.db.total_visits, uniqueVisitors := s.db.unique_visitors }
        seenVisitorIds := s.seenVisitorIds
        db := s.db } := rfl

lemma durStep_stats_err (s : DurState) : durStep s (DurOp.stats true) = s := rfl

lemma durStep_counterInv (s : DurState) (op : DurOp) (h : durCounterInv s) :
    durCounterInv (durStep s op) := by
  obtain ⟨h1, h2⟩ := h
  cases op with
  | visit c f e =>
    cases e with
    | false =>
      rw [durStep_visit_ok]
      unfold durCounterInv
      dsimp only
      constructor <;> split <;> omega
    | true =>
      rw [durStep_visit_err]
      exact ⟨h1, h2⟩
  | stats e =>
    cases e with
    | false =>
      rw [durStep_stats_ok]
      exact ⟨h2, h2⟩
    | true =>
      rw [durStep_stats_err]
      exact ⟨h1, h2⟩

lemma durRun_counterInv (ops : List DurOp) (s : DurState) (h : durCounterInv s) :
    durCounterInv (durRun s ops) := by
  induction ops generalizing s with
  | nil => simpa [durRun]
  | cons op ops ih => exact ih _ (durStep_counterInv s op h)

/-- Claim C2: after every sequence of operations from the initial state,
uniqueVisitors does not exceed totalVisits — for the ephemeral backend's
counters, for the durable backend's in-process cache, and for the
database row itself. -/
theorem uniqueVisitors_le_totalVisits :
    (∀ ops : List EphOp,
      (ephRun ephInit ops).stats.uniqueVisitors ≤ (ephRun ephInit ops).stats.totalVisits) ∧
    (∀ ops : List DurOp,
      (durRun durInit ops).stats.uniqueVisitors ≤ (durRun durInit ops).stats.totalVisits ∧
      (durRun durInit ops).db.unique_visitors ≤ (durRun durInit ops).db.total_visits) := by
  constructor
  · intro ops
    exact ephRun_le ops ephInit (by simp [ephInit])
  · intro ops
    exact durRun_counterInv ops durInit ⟨Nat.le_refl 0, Nat.le_refl 0⟩

/-- Claim C3: when the durable store errors during recordVisit, the
handler answers HTTP 500 with body { ok: false, error:
"stats_update_failed" }, sets no cookie, and the whole server state —
in particular the cached totalVisits and uniqueVisitors — is exactly
what it was before the call. -/
theorem durable_error_no_partial_update (s : DurState) (cookieVid : Option String)
    (freshId : String) :
    postVisitDurable s cookieVid freshId true =
      (s, { status := 500
            body := VisitBody.failure false "stats_update_failed"
            setCookieVid := none }) := rfl

/-- Claim C4 (code bug): a first visit with no vid cookie, from the
initial state, is answered 200 with totalVisits 1, uniqueVisitors 1 and
the vid cookie set in both backends, and with newVisitor true in the
ephemeral backend — but the durable backend answers newVisitor false,
because pg delivers the int8 new_visitor column as a string and
index.js line 123's strict comparison against the number 1 is always
false. -/
theorem first_visit_newVisitor_divergence (freshId : String) :
    (postVisitEphemeral ephInit none freshId).2 =
      { status := 200
        body := VisitBody.success true 1 1 true
        setCookieVid := some freshId } ∧
    (postVisitDurable durInit none freshId false).2 =
      { status := 200
        body := VisitBody.success true 1 1 false
        setCookieVid := some freshId } := ⟨rfl, rfl⟩

/-- Claim C5: a second visit reusing the cookie issued by the first
(initial-state) visit is answered with newVisitor false, totalVisits 2
and uniqueVisitors 1, in both backends. -/
theorem second_visit_same_cookie (u f2 : String) :
    (postVisitEphemeral (postVisitEphemeral ephInit none u).1 (some u) f2).2.body =
      VisitBody.success true 2 1 false ∧
    (postVisitDurable (postVisitDurable durInit none u false).1 (some u) f2 false).2.body =
      VisitBody.success true 2 1 false := by
  constructor
  · show (postVisitEphemeral ⟨⟨1, 1⟩, insert u ∅⟩ (some u) f2).2.body = _
    simp [postVisitEphemeral, resolveIsNew]
  · show (postVisitDurable ⟨⟨1, 1⟩, ∅, ⟨insert u ∅, 1, 1⟩⟩ (some u) f2 false).2.body = _
    simp [postVisitDurable, visitUpdateQuery, resolveVisitorId, jsStrictEq]

lemma ephRun_append (s : EphState) (ops1 ops2 : List EphOp) :
    ephRun s (ops1 ++ ops2) = ephRun (ephRun s ops1) ops2 := by
  induction ops1 generalizing s with
  | nil => rfl
  | cons op ops ih => simp [ephRun, ih]

lemma durRun_append (s : DurState) (ops1 ops2 : List DurOp) :
    durRun s (ops1 ++ ops2) = durRun (durRun s ops1) ops2 := by
  induction ops1 generalizing s with
  | nil => rfl
  | cons op ops ih => simp [durRun, ih]

lemma ephStep_mono (s : EphState) (op : EphOp) :
    s.stats.totalVisits ≤ (ephStep s op).stats.totalVisits ∧
    s.stats.uniqueVisitors ≤ (ephStep s op).stats.uniqueVisitors := by
  cases op with
  | visit c f =>
    refine ⟨Nat.le_succ _, ?_⟩
    show s.stats.uniqueVisitors ≤
      (if resolveIsNew s.seenVisitorIds c then s.stats.uniqueVisitors + 1
       else s.stats.uniqueVisitors)
    split <;> omega
  | stats => exact ⟨le_refl _, le_refl _⟩

def durCacheInv (s : DurState) : Prop :=
  s.stats.totalVisits ≤ s.db.total_visits ∧
  s.stats.uniqueVisitors ≤ s.db.unique_visitors

lemma durStep_cacheInv (s : DurState) (op : DurOp) (h : durCacheInv s) :
    durCacheInv (durStep s op) := by
  obtain ⟨h1, h2⟩ := h
  cases op with
  | visit c f e =>
    cases e with
    | false =>
      rw [durStep_visit_ok]
      exact ⟨le_refl _, le_refl _⟩
    | true =>
      rw [durStep_visit_err]
      exact ⟨h1, h2⟩
  | stats e =>
    cases e with
    | false =>
      rw [durStep_stats_ok]
      exact ⟨le_refl _, le_refl _⟩
    | true =>
      rw [durStep_stats_err]
      exact ⟨h1, h2⟩

lemma durRun_cacheInv (ops : List DurOp) (s : DurState) (h : durCacheInv s) :
    durCacheInv (durRun s ops) := by
  induction ops generalizing s with
  | nil => simpa [durRun]
  | cons op ops ih => exact ih _ (durStep_cacheInv s op h)

lemma durStep_mono (s : DurState) (op : DurOp) (h : durCacheInv s) :
    s.stats.totalVisits ≤ (durStep s op).stats.totalVisits ∧
    s.stats.uniqueVisitors ≤ (durStep s op).stats.uniqueVisitors ∧
    s.db.total_visits ≤ (durStep s op).db.total_visits ∧
    s.db.unique_visitors ≤ (durStep s op).db.unique_visitors := by
  obtain ⟨h1, h2⟩ := h
  cases op with
  | visit c f e =>
    cases e with
    | false =>
      rw [durStep_visit_ok]
      dsimp only
      refine ⟨by omega, ?_, by omega, ?_⟩ <;> split <;> omega
    | true =>
      rw [durStep_visit_err]
      exact ⟨le_refl _, le_refl _, le_refl _, le_refl _⟩
  | stats e =>
    cases e with
    | false =>
      rw [durStep_stats_ok]
      exact ⟨h1, h2, le_refl _, le_refl _⟩
    | true =>
      rw [durStep_stats_err]
      exact ⟨le_refl _, le_refl _, le_refl _, le_refl _⟩

/-- Claim C6: extending any run from the initial state by one more
operation never decreases totalVisits or uniqueVisitors — for the
ephemeral counters, for the durable backend's cached counters, and for
the database row. -/
theorem counters_monotone (ops : List EphOp) (op : EphOp) (dops : List DurOp) (dop : DurOp) :
    ((ephRun ephInit ops).stats.totalVisits ≤
        (ephRun ephInit (ops ++ [op])).stats.totalVisits ∧
      (ephRun ephInit ops).stats.uniqueVisitors ≤
        (ephRun ephInit (ops ++ [op])).stats.uniqueVisitors) ∧
    ((durRun durInit dops).stats.totalVisits ≤
        (durRun durInit (dops ++ [dop])).stats.totalVisits ∧
      (durRun durInit dops).stats.uniqueVisitors ≤
        (durRun durInit (dops ++ [dop])).stats.uniqueVisitors ∧
      (durRun durInit dops).db.total_visits ≤
        (durRun durInit (dops ++ [dop])).db.total_visits ∧
      (durRun durInit dops).db.unique_visitors ≤
        (durRun durInit (dops ++ [dop])).db.unique_visitors) := by
  rw [ephRun_append, durRun_append]
  constructor
  · have h := ephStep_mono (ephRun ephInit ops) op
    simpa [ephRun] using h
  · have hc := durRun_cacheInv dops durInit ⟨le_refl 0, le_refl 0⟩
    have h := durStep_mono (durRun durInit dops) dop hc
    simpa [durRun] using h

lemma durStep_visit_total (t : DurState) (v f : String) :
    (durStep t (DurOp.visit (some v) f false)).db.total_visits = t.db.total_visits + 1 := rfl

lemma durStep_visit_unique (t : DurState) (v f : String) :
    (durStep t (DurOp.visit (some v) f false)).db.unique_visitors =
      t.db.unique_visitors + (if v ∈ t.db.visitors then 0 else 1) := rfl

lemma durStep_visit_visitors (t : DurState) (v f : String) :
    (durStep t (DurOp.visit (some v) f false)).db.visitors = insert v t.db.visitors := rfl

/-- Claim C7: from every starting state, two recordVisit calls bearing
the same visitor id increment totalVisits by exactly 2 and
uniqueVisitors by at most 1 in total — ephemeral counters and durable
database counters alike. -/
theorem recordVisit_twice_same_id (s : EphState) (t : DurState) (v f1 f2 : String) :
    ((ephStep (ephStep s (EphOp.visit (some v) f1)) (EphOp.visit (some v) f2)).stats.totalVisits
        = s.stats.totalVisits + 2 ∧
      (ephStep (ephStep s (EphOp.visit (some v) f1))
          (EphOp.visit (some v) f2)).stats.uniqueVisitors
        ≤ s.stats.uniqueVisitors + 1) ∧
    ((durStep (durStep t (DurOp.visit (some v) f1 false))
          (DurOp.visit (some v) f2 false)).db.total_visits
        = t.db.total_visits + 2 ∧
      (durStep (durStep t (DurOp.visit (some v) f1 false))
          (DurOp.visit (some v) f2 false)).db.unique_visitors
        ≤ t.db.unique_visitors + 1) := by
  constructor
  · by_cases hv : v ∈ s.seenVisitorIds
    · rw [ephStep_visit_mem s v f1 hv,
        ephStep_visit_mem ⟨⟨s.stats.totalVisits + 1, s.stats.uniqueVisitors⟩,
          s.seenVisitorIds⟩ v f2 hv]
      dsimp only
      exact ⟨by omega, by omega⟩
    · rw [ephStep_visit_not_mem s v f1 hv,
        ephStep_visit_mem ⟨⟨s.stats.totalVisits + 1, s.stats.uniqueVisitors + 1⟩,
          insert v s.seenVisitorIds⟩ v f2 (Finset.mem_insert_self v _)]
      dsimp only
      exact ⟨by omega, by omega⟩
  · constructor
    · rw [durStep_visit_total, durStep_visit_total]
    · rw [durStep_visit_unique, durStep_visit_unique, durStep_visit_visitors,
        if_pos (Finset.mem_insert_self v _)]
      split <;> omega

/-- Claim C8: readStats after zero visits reports totalVisits 0 and
uniqueVisitors 0, in both backends. -/
theorem readStats_initial_zero :
    (getStatsEphemeral ephInit).2.body = StatsBody.success 0 0 ∧
    (getStatsDurable durInit false).2.body = StatsBody.success 0 0 := ⟨rfl, rfl⟩

/-- Counterexample to claim C9: with no configured allow-list and no
Origin header on the request, the middleware still answers the OPTIONS
request 204 with both preflight headers, so "only when the origin is
present and allow-listed" fails. -/
theorem cors_preflight_claim_false : ¬ corsClaimC9 := by
  intro h
  have hpre := (h none { origin := none, method := "OPTIONS" } rfl).mp (by decide)
  obtain ⟨o, ho, _⟩ := hpre
  exact Option.noConfusion ho

/-- Claim C9, amended: every OPTIONS request is answered 204 with
Access-Control-Allow-Methods: GET,POST,OPTIONS and
Access-Control-Allow-Headers: Content-Type, regardless of whether the
Origin header is present or allow-listed. -/
theorem cors_preflight_always_answered (allowedOrigin : Option String) (req : CorsRequest)
    (h : req.method = "OPTIONS") :
    preflightAnswered (corsMiddleware allowedOrigin req) := by
  unfold corsMiddleware preflightAnswered
  rw [h]
  simp

/-- Witness for the amended C9, at a concrete OPTIONS request with no
Origin header and no allow-list. -/
theorem cors_preflight_always_answered_witness :
    ({ origin := none, method := "OPTIONS" } : CorsRequest).method = "OPTIONS" ∧
    preflightAnswered (corsMiddleware none { origin := none, method := "OPTIONS" }) :=
  ⟨rfl, cors_preflight_always_answered none { origin := none, method := "OPTIONS" } rfl⟩

lemma ephStep_seen_subset (s : EphState) (op : EphOp) :
    s.seenVisitorIds ⊆ (ephStep s op).seenVisitorIds := by
  cases op with
  | visit c f =>
    show s.seenVisitorIds ⊆
      (if resolveIsNew s.seenVisitorIds c then
        insert (resolveVisitorId c f) s.seenVisitorIds else s.seenVisitorIds)
    split
    · exact Finset.subset_insert _ _
    · exact Finset.Subset.refl _
  | stats => exact Finset.Subset.refl _

lemma ephStep_visit_none (s : EphState) (f : String) :
    ephStep s (EphOp.visit none f) =
      { stats := { totalVisits := s.stats.totalVisits + 1
                   uniqueVisitors := s.stats.uniqueVisitors + 1 }
        seenVisitorIds := insert f s.seenVisitorIds } := rfl

lemma freshRun_card (ops : List EphOp) (s : EphState)
    (h : freshRun s ops = true)
    (hcard : s.stats.uniqueVisitors = s.seenVisitorIds.card) :
    (ephRun s ops).stats.uniqueVisitors = (ephRun s ops).seenVisitorIds.card := by
  induction ops generalizing s with
  | nil => simpa [ephRun]
  | cons op ops ih =>
    rw [freshRun, Bool.and_eq_true] at h
    refine ih _ h.2 ?_
    cases op with
    | stats => exact hcard
    | visit c f =>
      cases c with
      | none =>
        have hf : f ∉ s.seenVisitorIds := by
          have hh := h.1
          simp [freshOk] at hh
          exact hh
        rw [ephStep_visit_none]
        dsimp only
        rw [Finset.card_insert_of_not_mem hf, hcard]
      | some v =>
        by_cases hv : v ∈ s.seenVisitorIds
        · rw [ephStep_visit_mem s v f hv]
          exact hcard
        · rw [ephStep_visit_not_mem s v f hv]
          dsimp only
          rw [Finset.card_insert_of_not_mem hv, hcard]

lemma ephStep_unique_iff_seen (s : EphState) (op : EphOp) (h : freshOk s op = true) :
    (ephStep s op).stats.uniqueVisitors = s.stats.uniqueVisitors + 1 ↔
      (ephStep s op).seenVisitorIds ≠ s.seenVisitorIds := by
  cases op with
  | stats =>
    show s.stats.uniqueVisitors = s.stats.uniqueVisitors + 1 ↔
      s.seenVisitorIds ≠ s.seenVisitorIds
    constructor
    · intro heq
      exact absurd heq (by omega)
    · intro hne
      exact absurd rfl hne
  | visit c f =>
    cases c with
    | none =>
      have hf : f ∉ s.seenVisitorIds := by
        simp [freshOk] at h
        exact h
      rw [ephStep_visit_none]
      dsimp only
      constructor
      · intro _
        intro heq
        exact hf (heq ▸ Finset.mem_insert_self f s.seenVisitorIds)
      · intro _
        rfl
    | some v =>
      by_cases hv : v ∈ s.seenVisitorIds
      · rw [ephStep_visit_mem s v f hv]
        dsimp only
        constructor
        · intro heq
          exact absurd heq (by omega)
        · intro hne
          exact absurd rfl hne
      · rw [ephStep_visit_not_mem s v f hv]
        dsimp only
        constructor
        · intro _
          intro heq
          exact hv (heq ▸ Finset.mem_insert_self v s.seenVisitorIds)
        · intro _
          rfl

/-- Claim C10: in the ephemeral backend, under the freshness assumption
on generated uuids, after every run from the initial state
uniqueVisitors equals the cardinality of seenVisitorIds; moreover no
operation removes ids from the set, and an operation increments
uniqueVisitors exactly when it changes the set. -/
theorem ephemeral_unique_matches_seen :
    (∀ ops : List EphOp, freshRun ephInit ops = true →
      (ephRun ephInit ops).stats.uniqueVisitors =
        (ephRun ephInit ops).seenVisitorIds.card) ∧
    (∀ (s : EphState) (op : EphOp), s.seenVisitorIds ⊆ (ephStep s op).seenVisitorIds) ∧
    (∀ (s : EphState) (op : EphOp), freshOk s op = true →
      ((ephStep s op).stats.uniqueVisitors = s.stats.uniqueVisitors + 1 ↔
        (ephStep s op).seenVisitorIds ≠ s.seenVisitorIds)) := by
  refine ⟨?_, ephStep_seen_subset, ephStep_unique_iff_seen⟩
  intro ops h
  exact freshRun_card ops ephInit h (by simp [ephInit])

/-- Witness for C10 on a concrete two-visit run: one generated id, then
a returning cookie bearing the same id. -/
theorem ephemeral_unique_matches_seen_witness :
    freshRun ephInit [EphOp.visit none "a", EphOp.visit (some "a") "b"] = true ∧
    (ephRun ephInit [EphOp.visit none "a", EphOp.visit (some "a") "b"]).stats.uniqueVisitors =
      (ephRun ephInit [EphOp.visit none "a",
        EphOp.visit (some "a") "b"]).seenVisitorIds.card ∧
    freshOk ephInit (EphOp.visit none "a") = true ∧
    ((ephStep ephInit (EphOp.visit none "a")).stats.uniqueVisitors =
        ephInit.stats.uniqueVisitors + 1 ↔
      (ephStep ephInit (EphOp.visit none "a")).seenVisitorIds ≠ ephInit.seenVisitorIds) :=
  ⟨by decide,
   ephemeral_unique_matches_seen.1 [EphOp.visit none "a", EphOp.visit (some "a") "b"]
     (by decide),
   by decide,
   ephemeral_unique_matches_seen.2.2 ephInit (EphOp.visit none "a") (by decide)⟩
